import Mathlib

/-!
Verification of the pluggable request-dispatch layer of `yt_dlp/networking/__init__.py`:
the `RequestDirector` (registry operations `add_handler` / `remove_handler` /
`replace_handler`, the defaults merge `_merge_ydl`, and the dispatch loop `send`).

Collaborator types whose code is outside the sources at hand (`Request`, `Response`,
the exception classes, `CaseInsensitiveDict`, `Request.prepare`) are modelled from
the specification; each such definition says so in its doc comment.

Machine-level conventions of the embedding:
- Python exceptions raised by a handler call are reified in `Exn`; the `except`
  clause precedence of `RequestDirector.send` is encoded in `classify`.
- Mutation of `self._handlers` becomes explicit state passing on `RequestDirector`.
- `_merge_ydl` mutates the caller's `Request` in place and returns it; `send`
  therefore returns, besides its outcome, the final state of the caller's
  `Request` object (third component), so that the mutation is observable.
- Diagnostic and handler-invocation side effects of the dispatch loop are recorded
  in an explicit `Event` trace (second component of `send`'s result).
-/

namespace Networking

/-- Exceptions a handler call can raise, grouped the way the `except` clauses of
`RequestDirector.send` discriminate them: `UnsupportedRequest` (a declination;
in the source it subclasses `RequestError`, but the dedicated
`except UnsupportedRequest` clause catches it before the `RequestError` re-raise
is ever reached), any other `RequestError`, and any other exception
(an unexpected fault). Each carries its message text. -/
inductive Exn where
  | unsupported (msg : String)
  | requestError (msg : String)
  | other (msg : String)
deriving DecidableEq, Repr

/-- Result of a Python call that can raise. -/
inductive CallResult (α : Type) where
  | ok (a : α)
  | exn (e : Exn)
deriving DecidableEq, Repr

/-- Modelled from the spec: a Response holds a status code and a header map
(§3; the body stream plays no role in the dispatch claims). -/
structure Response where
  status : Nat
  headers : List (String × String)
deriving DecidableEq, Repr

/-- Modelled from the spec: a Request is target URL, headers (association list,
keys compared case-insensitively), optional timeout, and a proxy map (§3).
The source's `Request` class is not among the sources at hand. -/
structure Request where
  url : String
  headers : List (String × String)
  timeout : Option Nat
  proxies : List (String × String)
deriving DecidableEq, Repr

/-- A `RequestHandler` as the director sees it: `id` is Python object identity
(used by the `in` membership test and the `h is handler` removal test), `ty` its
runtime type (used by the `type(h) == handler` removal test), `RH_NAME` its
display name, and `can_handle` / `handle` its behaviour on a prepared request. -/
structure Handler where
  id : Nat
  ty : Nat
  RH_NAME : String
  can_handle : Request → CallResult Unit
  handle : Request → CallResult Response

/-- The slice of the `ydl` collaborator that `RequestDirector` consumes:
`ydl.params.get('http_headers', {})`, `ydl.params.get('socket_timeout')` and
`ydl.proxies`. -/
structure YDL where
  http_headers : List (String × String)
  socket_timeout : Option Nat
  proxies : List (String × String)
deriving DecidableEq, Repr

/-- `RequestDirector`: the ordered handler registry `self._handlers`
(insertion order; the most recently appended handler has highest priority)
together with its `ydl` collaborator. -/
structure RequestDirector where
  handlers : List Handler
  ydl : YDL

/-- Membership test `handler in self._handlers`: Python `in` compares with `==`,
which for `RequestHandler` instances is object identity, i.e. `id` equality. -/
def hasHandler (l : List Handler) (h : Handler) : Bool :=
  l.any (fun g => g.id == h.id)

/-- `RequestDirector.add_handler`: append unless an identical instance is
already present (in which case the registry is left untouched). -/
def add_handler (d : RequestDirector) (h : Handler) : RequestDirector :=
  if hasHandler d.handlers h then d
  else { d with handlers := d.handlers ++ [h] }

/-- The argument of `remove_handler` / `get_handlers`: either a specific handler
instance (matched by identity, `h is handler`) or a handler class (matched by
runtime type, `type(h) == handler`). A class object never equals an instance
and is never identical to one, so each key exercises exactly one disjunct of
`type(h) == handler or h is handler`. -/
inductive RemovalKey where
  | inst (i : Nat)
  | cls (t : Nat)
deriving DecidableEq, Repr

/-- The predicate `type(h) == handler or h is handler` of `remove_handler` and
`get_handlers`, specialised by the kind of key passed. -/
def removal_matches (key : RemovalKey) (g : Handler) : Bool :=
  match key with
  | .inst i => g.id == i
  | .cls t => g.ty == t

/-- `RequestDirector.remove_handler`: keep exactly the handlers that do not
match the key (`[h for h in self._handlers if not (type(h) == handler or h is handler)]`). -/
def remove_handler (d : RequestDirector) (key : RemovalKey) : RequestDirector :=
  { d with handlers := d.handlers.filter (fun g => !(removal_matches key g)) }

/-- `RequestDirector.get_handlers`: all handlers matching the key. -/
def get_handlers (d : RequestDirector) (key : RemovalKey) : List Handler :=
  d.handlers.filter (fun g => removal_matches key g)

/-- `RequestDirector.replace_handler`: `remove_handler` then `add_handler`,
with the same instance as key. -/
def replace_handler (d : RequestDirector) (h : Handler) : RequestDirector :=
  add_handler (remove_handler d (.inst h.id)) h

/-- Case-insensitive header-key comparison. -/
def keyEq (a b : String) : Bool :=
  a.toLower == b.toLower

/-- Case-insensitive lookup in a header association list: the value of the first
entry whose key matches, if any. -/
def hLookup (hs : List (String × String)) (k : String) : Option String :=
  (hs.find? (fun p => keyEq p.1 k)).map (fun p => p.2)

/-- Modelled from the spec: `CaseInsensitiveDict(base, overlay)`
(`yt_dlp.utils.CaseInsensitiveDict`, not among the sources at hand) builds a
case-insensitive mapping where the overlay's entries override the base's on key
collision (§4.1: request-specific headers override caller defaults,
case-insensitively). Represented as the base entries not shadowed by the
overlay, followed by the overlay. -/
def mergeHeaders (base overlay : List (String × String)) : List (String × String) :=
  base.filter (fun p => ((overlay.find? (fun q => keyEq q.1 p.1)).isNone : Bool)) ++ overlay

/-- Python `or` on an optional number, as in `request.timeout or default`:
`None` and `0` are falsy, so either falls through to the default. -/
def pyOrNat : Option Nat → Option Nat → Option Nat
  | some t, b => if t = 0 then b else some t
  | none, b => b

/-- `RequestDirector._merge_ydl`: reassigns `request.headers`, `request.timeout`
and `request.proxies` on the caller's request object (the source carries a
`TODO: need to make a copy of request` — no copy is made) and returns it. -/
def merge_ydl (d : RequestDirector) (request : Request) : Request :=
  { request with
    headers := mergeHeaders d.ydl.http_headers request.headers
    timeout := pyOrNat request.timeout d.ydl.socket_timeout
    proxies := if request.proxies.isEmpty then d.ydl.proxies else request.proxies }

/-- Modelled from the spec: `Request.prepare` derives the fully-resolved form
used for dispatch (§3, glossary: a prepared request is the request after the
process-wide defaults have been merged in). After `_merge_ydl` the request is
already fully resolved, so preparation is the identity on its data. -/
def prepare (r : Request) : Request := r

/-- Outcome of presenting a prepared request to one handler, i.e. of one
iteration of the `try` block of `RequestDirector.send` (`can_handle` then
`handle`) as resolved by its `except` clauses: `UnsupportedRequest` from either
call is a declination (its `except` clause precedes and therefore overrides the
`RequestError` re-raise); any other `RequestError` from either call is re-raised
(`.failedRE`); any other exception is an unexpected fault; otherwise the
response is returned. -/
inductive HOutcome where
  | success (r : Response)
  | declined (msg : String)
  | failedRE (msg : String)
  | fault (msg : String)
deriving DecidableEq, Repr

/-- Classify one handler's behaviour on a request, per the `try` / `except`
structure of `RequestDirector.send` (see `HOutcome`). -/
def classify (req : Request) (h : Handler) : HOutcome :=
  match h.can_handle req with
  | .exn (.unsupported m) => .declined m
  | .exn (.requestError m) => .failedRE m
  | .exn (.other m) => .fault m
  | .ok _ =>
    match h.handle req with
    | .ok r => .success r
    | .exn (.unsupported m) => .declined m
    | .exn (.requestError m) => .failedRE m
    | .exn (.other m) => .fault m

/-- Observable side effects of the dispatch loop: the two handler operations
being invoked, the `to_debugtraffic` line for a declination, and the non-fatal
`report_error(..., is_error=False)` diagnostic for an unexpected fault. -/
inductive Event where
  | canHandleCalled (name : String)
  | handleCalled (name : String)
  | declinedDiag (name : String) (msg : String)
  | unexpectedDiag (name : String) (msg : String)
deriving DecidableEq, Repr

/-- The event trace one loop iteration emits for a handler: `can_handle` is
always invoked; `handle` only when `can_handle` returned; declinations and
unexpected faults additionally emit their diagnostic. -/
def handlerEvents (req : Request) (h : Handler) : List Event :=
  match h.can_handle req with
  | .exn (.unsupported m) => [.canHandleCalled h.RH_NAME, .declinedDiag h.RH_NAME m]
  | .exn (.requestError _) => [.canHandleCalled h.RH_NAME]
  | .exn (.other m) => [.canHandleCalled h.RH_NAME, .unexpectedDiag h.RH_NAME m]
  | .ok _ =>
    .canHandleCalled h.RH_NAME :: .handleCalled h.RH_NAME ::
      (match h.handle req with
       | .ok _ => []
       | .exn (.unsupported m) => [.declinedDiag h.RH_NAME m]
       | .exn (.requestError _) => []
       | .exn (.other m) => [.unexpectedDiag h.RH_NAME m])

/-- What `send` does overall: return a `Response` or raise a `RequestError`
whose message is `msg`. -/
inductive SendOutcome where
  | success (r : Response)
  | failure (msg : String)
deriving DecidableEq, Repr

/-- One `err_handler_map.setdefault(err.msg, []).append(err.handler.RH_NAME)`
step on an insertion-ordered map represented as an association list: append the
name under the first entry with this message, or add a new entry at the end. -/
def insertReason : List (String × List String) → String → String → List (String × List String)
  | [], msg, name => [(msg, [name])]
  | (m, ns) :: rest, msg, name =>
    if m = msg then (m, ns ++ [name]) :: rest
    else (m, ns) :: insertReason rest msg name

/-- The `err_handler_map` built by the exhaustion path of `send`: group the
recorded `(message, handler name)` pairs by message, preserving first-occurrence
order of messages and recording order of names (Python dict semantics). -/
def groupReasons (errs : List (String × String)) : List (String × List String) :=
  errs.foldl (fun acc e => insertReason acc e.1 e.2) []

/-- Render one grouped reason: `f'{msg} ({", ".join(handlers)})'`. -/
def renderReason (p : String × List String) : String :=
  p.1 ++ " (" ++ String.intercalate ", " p.2 ++ ")"

/-- The `reasons` list of the exhaustion path: each grouped declination reason
rendered, then — only if any unexpected errors were recorded — the count of
unexpected errors. -/
def reasonsList (unsupported : List (String × String)) (unexpected : List String) :
    List String :=
  (groupReasons unsupported).map renderReason ++
    (if unexpected.isEmpty then [] else
      [toString unexpected.length ++ " unexpected error(s)"])

/-- The message of the `RequestError` raised on exhaustion:
`'Unable to handle request'`, extended with `', possible reason(s): '` and the
comma-joined reasons when there are any. -/
def exhaustMsg (unsupported : List (String × String)) (unexpected : List String) :
    String :=
  "Unable to handle request" ++
    (if (reasonsList unsupported unexpected).isEmpty then ""
     else ", possible reason(s): " ++ String.intercalate ", " (reasonsList unsupported unexpected))

/-- The `for handler in reversed(self._handlers)` loop of `RequestDirector.send`,
over the (already reversed) handler list, threading the `unsupported_errors`
accumulator (as `(message, handler name)` pairs, since only `err.msg` and
`err.handler.RH_NAME` are consumed) and the `unexpected_errors` accumulator
(as messages, since only the count is consumed). Returns the outcome and the
emitted event trace. -/
def runLoop (req : Request) :
    List Handler → List (String × String) → List String → SendOutcome × List Event
  | [], uns, unexp => (.failure (exhaustMsg uns unexp), [])
  | h :: rest, uns, unexp =>
    match classify req h with
    | .success r => (.success r, handlerEvents req h)
    | .failedRE m => (.failure m, handlerEvents req h)
    | .declined m =>
      let p := runLoop req rest (uns ++ [(m, h.RH_NAME)]) unexp
      (p.1, handlerEvents req h ++ p.2)
    | .fault m =>
      let p := runLoop req rest uns (unexp ++ [m])
      (p.1, handlerEvents req h ++ p.2)

/-- `RequestDirector.send`. Components of the result: the outcome (Response or
raised `RequestError` message), the event trace, and the final state of the
caller's `Request` object — `_merge_ydl` mutates it in place before the loop,
while the empty-registry check fires before any preparation and leaves it
untouched. -/
def send (d : RequestDirector) (request : Request) :
    SendOutcome × List Event × Request :=
  if d.handlers.length = 0 then
    (.failure "No request handlers configured", [], request)
  else
    let merged := merge_ydl d request
    let prepared_request := prepare merged
    let p := runLoop prepared_request d.handlers.reverse [] []
    (p.1, p.2, merged)

/-- Whether a handler's outcome stops the loop (success or a re-raised
`RequestError`), as opposed to the declination / unexpected-fault outcomes
that continue with the next handler. -/
def stops (req : Request) (h : Handler) : Bool :=
  match classify req h with
  | .success _ => true
  | .failedRE _ => true
  | .declined _ => false
  | .fault _ => false

/-- The `(message, handler name)` declination pairs a run over `l` records,
in order. -/
def declinedPairs (req : Request) (l : List Handler) : List (String × String) :=
  l.flatMap (fun h =>
    match classify req h with
    | .declined m => [(m, h.RH_NAME)]
    | _ => [])

/-- The unexpected-fault messages a run over `l` records, in order. -/
def faultsOf (req : Request) (l : List Handler) : List String :=
  l.flatMap (fun h =>
    match classify req h with
    | .fault m => [m]
    | _ => [])

/-- The declination pairs a full dispatch of `request` through `d` records
(dispatch order is reverse insertion order). -/
def dispatchDecls (d : RequestDirector) (request : Request) : List (String × String) :=
  declinedPairs (prepare (merge_ydl d request)) d.handlers.reverse

/-- The unexpected-fault messages a full dispatch of `request` through `d`
records. -/
def dispatchFaults (d : RequestDirector) (request : Request) : List String :=
  faultsOf (prepare (merge_ydl d request)) d.handlers.reverse

/-- Value stored under the first entry with key `k` in an insertion-ordered
association map (empty list when absent); used to state what `groupReasons`
associates to each reason message. -/
def lookupReason : List (String × List String) → String → List String
  | [], _ => []
  | (m, ns) :: rest, k => if m = k then ns else lookupReason rest k

/-- The timeout-selection rule in the words of the claim ("the prepared timeout
is the request's timeout if set, otherwise the process-wide default timeout"),
stated from the spec for comparison with what `merge_ydl` computes. -/
def specClaimedTimeout (request : Request) (dflt : Option Nat) : Option Nat :=
  match request.timeout with
  | some t => some t
  | none => dflt

/-! Concrete fixtures used by witnesses and counterexamples. -/

/-- Fixture: process-wide defaults. -/
def ydl0 : YDL :=
  { http_headers := [("Accept", "x")], socket_timeout := some 20,
    proxies := [("http", "p")] }

/-- Fixture: a caller request with no headers, timeout or proxies of its own. -/
def req0 : Request :=
  { url := "http://x", headers := [], timeout := none, proxies := [] }

/-- Fixture: the response returned by succeeding fixture handlers. -/
def respB : Response := { status := 200, headers := [] }

/-- Fixture: handler that accepts every request and succeeds. -/
def hB : Handler :=
  { id := 1, ty := 10, RH_NAME := "B",
    can_handle := fun _ => .ok (), handle := fun _ => .ok respB }

/-- Fixture: handler that accepts and then fails with a `RequestError`. -/
def hA : Handler :=
  { id := 2, ty := 10, RH_NAME := "A",
    can_handle := fun _ => .ok (), handle := fun _ => .exn (.requestError "boom") }

/-- Fixture: handler whose `can_handle` declines every request. -/
def hDecl1 : Handler :=
  { id := 3, ty := 11, RH_NAME := "D1",
    can_handle := fun _ => .exn (.unsupported "unsupported scheme"),
    handle := fun _ => .ok respB }

/-- Fixture: a second handler declining with the same reason text as `hDecl1`. -/
def hDecl2 : Handler :=
  { id := 4, ty := 11, RH_NAME := "D2",
    can_handle := fun _ => .exn (.unsupported "unsupported scheme"),
    handle := fun _ => .ok respB }

/-- Fixture: handler that accepts and then raises an unexpected fault. -/
def hFault : Handler :=
  { id := 5, ty := 12, RH_NAME := "F",
    can_handle := fun _ => .ok (), handle := fun _ => .exn (.other "crash") }

/-- Fixture: handler whose `handle` raises `UnsupportedRequest` after
`can_handle` accepted. -/
def hU : Handler :=
  { id := 6, ty := 13, RH_NAME := "U",
    can_handle := fun _ => .ok (), handle := fun _ => .exn (.unsupported "late decline") }

/-- Fixture: registry `[B, A]` — `A` added last, so `A` is tried first. -/
def dBA : RequestDirector := { handlers := [hB, hA], ydl := ydl0 }

/-- Fixture: registry `[B, D1]` — `D1` added last, so dispatch order is
`[D1, B]`: the decliner is consulted first, then `B` succeeds. -/
def dDeclB : RequestDirector := { handlers := [hB, hDecl1], ydl := ydl0 }

/-- Fixture: registry `[B, F]` — the faulting handler tried first, `B` below. -/
def dFaultB : RequestDirector := { handlers := [hB, hFault], ydl := ydl0 }

/-- Fixture: registry `[B, U]` — the late-declining handler tried first. -/
def dUB : RequestDirector := { handlers := [hB, hU], ydl := ydl0 }

/-- Fixture: exhaustion registry `[F, D2, D1]` — dispatch order `[D1, D2, F]`:
two declinations with the same reason text, then an unexpected fault. -/
def dExh : RequestDirector := { handlers := [hFault, hDecl2, hDecl1], ydl := ydl0 }

/-- Fixture: the empty registry. -/
def dEmpty : RequestDirector := { handlers := [], ydl := ydl0 }

/-- Fixture: registry with a single declining handler (used to observe the
in-place mutation of the caller's request by `_merge_ydl`). -/
def dDecl : RequestDirector := { handlers := [hDecl1], ydl := ydl0 }

/-- Fixture: a request with timeout `0` (set, but falsy in Python). -/
def reqT0 : Request :=
  { url := "http://x", headers := [], timeout := some 0, proxies := [] }

/-- Fixture: defaults with `socket_timeout` 5, for the timeout counterexample. -/
def dT5 : RequestDirector :=
  { handlers := [hB],
    ydl := { http_headers := [], socket_timeout := some 5, proxies := [] } }

/-! Helper lemmas about the case-insensitive header merge. -/

theorem keyEq_iff (a b : String) : keyEq a b = true ↔ a.toLower = b.toLower := by
  simp [keyEq]

theorem keyEq_trans {a b c : String} (h₁ : keyEq a b = true) (h₂ : keyEq b c = true) :
    keyEq a c = true := by
  rw [keyEq_iff] at h₁ h₂ ⊢
  exact h₁.trans h₂

theorem keyEq_symm {a b : String} (h : keyEq a b = true) : keyEq b a = true := by
  rw [keyEq_iff] at h ⊢
  exact h.symm

/-- Filtering out only entries that the predicate rejects does not change the
first entry the predicate finds. -/
theorem find?_filter_of_imp {α : Type} (l : List α) (p keep : α → Bool)
    (h : ∀ a ∈ l, p a = true → keep a = true) :
    (l.filter keep).find? p = l.find? p := by
  induction l with
  | nil => simp
  | cons a l ih =>
    have ih' := ih (fun b hb hpb => h b (List.mem_cons_of_mem a hb) hpb)
    by_cases hp : p a = true
    · have hk : keep a = true := h a (List.mem_cons_self a l) hp
      simp [List.filter_cons, hk, List.find?_cons, hp]
    · have hp' : p a = false := by simpa using hp
      cases hk : keep a with
      | true => simp [List.filter_cons, hk, List.find?_cons, hp', ih']
      | false => simp [List.filter_cons, hk, List.find?_cons, hp', ih']

/-- Case-insensitive lookup in the merged header list: the overlay's value when
the overlay has the key (case-insensitively), otherwise the base's value. -/
theorem hLookup_mergeHeaders (base overlay : List (String × String)) (k : String) :
    hLookup (mergeHeaders base overlay) k =
      match hLookup overlay k with
      | some v => some v
      | none => hLookup base k := by
  unfold hLookup mergeHeaders
  rw [List.find?_append]
  cases hov : overlay.find? (fun p => keyEq p.1 k) with
  | some q =>
    have hq : keyEq q.1 k = true := by
      simpa using List.find?_some hov
    have hqmem : q ∈ overlay := List.mem_of_find?_eq_some hov
    have hfilt :
        (base.filter (fun p => ((overlay.find? (fun q' => keyEq q'.1 p.1)).isNone : Bool))).find?
          (fun p => keyEq p.1 k) = none := by
      rw [List.find?_eq_none]
      intro p hp
      rw [List.mem_filter] at hp
      obtain ⟨-, hkeep⟩ := hp
      intro hpk
      have hnone : overlay.find? (fun q' => keyEq q'.1 p.1) = none := by
        simpa [Option.isNone_iff_eq_none] using hkeep
      rw [List.find?_eq_none] at hnone
      exact hnone q hqmem (by simpa using keyEq_trans hq (keyEq_symm hpk))
    simp [hfilt, hov]
  | none =>
    have hno : ∀ q ∈ overlay, keyEq q.1 k = false := by
      intro q hq
      have := List.find?_eq_none.mp hov q hq
      simpa using this
    have hkeep : ∀ p ∈ base, keyEq p.1 k = true →
        ((overlay.find? (fun q' => keyEq q'.1 p.1)).isNone : Bool) = true := by
      intro p _ hpk
      rw [Option.isNone_iff_eq_none, List.find?_eq_none]
      intro q hqov hqp
      have : keyEq q.1 k = true := keyEq_trans (by simpa using hqp) hpk
      rw [hno q hqov] at this
      exact Bool.noConfusion this
    rw [find?_filter_of_imp base _ _ hkeep]
    cases base.find? (fun p => keyEq p.1 k) <;> simp

/-- C7 (amended). Preparation merges as the spec describes for headers
(request headers override the process defaults on case-insensitive key
collision) and proxies (request map wins if non-empty), while for the timeout
the request's value wins only when it is set AND non-zero: `_merge_ydl` uses
Python `or`, under which a timeout of `0` is falsy and falls back to the
process-wide default. -/
theorem merge_ydl_spec (d : RequestDirector) (request : Request) :
    (∀ k, hLookup (merge_ydl d request).headers k =
        match hLookup request.headers k with
        | some v => some v
        | none => hLookup d.ydl.http_headers k) ∧
    (∀ t, request.timeout = some t → t ≠ 0 →
        (merge_ydl d request).timeout = some t) ∧
    ((request.timeout = none ∨ request.timeout = some 0) →
        (merge_ydl d request).timeout = d.ydl.socket_timeout) ∧
    (request.proxies ≠ [] → (merge_ydl d request).proxies = request.proxies) ∧
    (request.proxies = [] → (merge_ydl d request).proxies = d.ydl.proxies) := by
  refine ⟨?_, ?_, ?_, ?_, ?_⟩
  · intro k
    exact hLookup_mergeHeaders d.ydl.http_headers request.headers k
  · intro t ht htz
    simp [merge_ydl, pyOrNat, ht, htz]
  · intro ht
    rcases ht with ht | ht <;> simp [merge_ydl, pyOrNat, ht]
  · intro hp
    have : request.proxies.isEmpty = false := by
      simpa [List.isEmpty_iff] using hp
    simp [merge_ydl, this]
  · intro hp
    simp [merge_ydl, hp]

/-- C7 witness: the amended merge rules evaluated on a concrete request whose
timeout is 7 and whose proxies are non-empty. -/
theorem merge_ydl_spec_witness :
    (merge_ydl dT5 { url := "u", headers := [("X", "1")], timeout := some 7,
                     proxies := [("http", "q")] }).timeout = some 7 ∧
    (merge_ydl dT5 { url := "u", headers := [("X", "1")], timeout := some 7,
                     proxies := [("http", "q")] }).proxies = [("http", "q")] := by
  constructor
  · exact (merge_ydl_spec dT5 _).2.1 7 rfl (by decide)
  · exact (merge_ydl_spec dT5 _).2.2.2.1 (by decide)

/-- C7 counterexample: a request whose timeout is set to `0`. The claim says
the prepared timeout is the request's timeout whenever it is set, but
`_merge_ydl` computes the process default (5), not the request's `0`. -/
theorem merge_ydl_claim_counterexample :
    reqT0.timeout = some 0 ∧
    specClaimedTimeout reqT0 dT5.ydl.socket_timeout = some 0 ∧
    (merge_ydl dT5 reqT0).timeout = some 5 ∧
    (merge_ydl dT5 reqT0).timeout ≠ specClaimedTimeout reqT0 dT5.ydl.socket_timeout := by
  refine ⟨rfl, rfl, rfl, ?_⟩
  decide

/-! Helper lemmas about the dispatch loop. -/

/-- Unfolding of `send` on a non-empty registry. -/
theorem send_of_ne_nil (d : RequestDirector) (request : Request)
    (hne : d.handlers ≠ []) :
    send d request =
      ((runLoop (prepare (merge_ydl d request)) d.handlers.reverse [] []).1,
       (runLoop (prepare (merge_ydl d request)) d.handlers.reverse [] []).2,
       merge_ydl d request) := by
  have hlen : ¬ d.handlers.length = 0 := fun h => hne (List.length_eq_zero.mp h)
  simp [send, hlen]

/-- Running the loop over a prefix of handlers that all decline or fault
reduces to running it over the rest, with the prefix's declination pairs and
fault messages appended to the accumulators and its event blocks prepended to
the trace. -/
theorem runLoop_nonstop_append (req : Request) (pre : List Handler)
    (hpre : ∀ g ∈ pre, stops req g = false) (rest : List Handler)
    (uns : List (String × String)) (unexp : List String) :
    runLoop req (pre ++ rest) uns unexp =
      ((runLoop req rest (uns ++ declinedPairs req pre) (unexp ++ faultsOf req pre)).1,
       pre.flatMap (handlerEvents req) ++
         (runLoop req rest (uns ++ declinedPairs req pre) (unexp ++ faultsOf req pre)).2) := by
  induction pre generalizing uns unexp with
  | nil => simp [declinedPairs, faultsOf]
  | cons h pre ih =>
    have hstop := hpre h (List.mem_cons_self h pre)
    have hpre' : ∀ g ∈ pre, stops req g = false :=
      fun g hg => hpre g (List.mem_cons_of_mem h hg)
    cases hcl : classify req h with
    | success r => rw [stops, hcl] at hstop; exact Bool.noConfusion hstop
    | failedRE m => rw [stops, hcl] at hstop; exact Bool.noConfusion hstop
    | declined m =>
      have step :
          runLoop req ((h :: pre) ++ rest) uns unexp =
            ((runLoop req (pre ++ rest) (uns ++ [(m, h.RH_NAME)]) unexp).1,
             handlerEvents req h ++
               (runLoop req (pre ++ rest) (uns ++ [(m, h.RH_NAME)]) unexp).2) := by
        simp [runLoop, hcl]
      rw [step, ih hpre']
      simp [declinedPairs, faultsOf, hcl, List.append_assoc]
    | fault m =>
      have step :
          runLoop req ((h :: pre) ++ rest) uns unexp =
            ((runLoop req (pre ++ rest) uns (unexp ++ [m])).1,
             handlerEvents req h ++
               (runLoop req (pre ++ rest) uns (unexp ++ [m])).2) := by
        simp [runLoop, hcl]
      rw [step, ih hpre']
      simp [declinedPairs, faultsOf, hcl, List.append_assoc]

/-- When every handler declines or faults, the loop exhausts and raises the
aggregated message, having emitted every handler's event block. -/
theorem runLoop_exhaust (req : Request) (l : List Handler)
    (hl : ∀ g ∈ l, stops req g = false)
    (uns : List (String × String)) (unexp : List String) :
    runLoop req l uns unexp =
      (.failure (exhaustMsg (uns ++ declinedPairs req l) (unexp ++ faultsOf req l)),
       l.flatMap (handlerEvents req)) := by
  have := runLoop_nonstop_append req l hl [] uns unexp
  simpa [runLoop] using this

/-- C1 (amended). If, in dispatch (reverse-insertion) order, every handler
before `h` declines or faults — in particular none of them raises a
`RequestError` — and `h` accepts the prepared request and succeeds with `r`,
then `send` returns `r`, and the event trace ends with `h`'s block: no handler
below `h` in priority is invoked. -/
theorem send_success_highest_priority (d : RequestDirector) (request : Request)
    (pre post : List Handler) (h : Handler) (r : Response)
    (hsplit : d.handlers.reverse = pre ++ h :: post)
    (hpre : ∀ g ∈ pre, stops (prepare (merge_ydl d request)) g = false)
    (hs : classify (prepare (merge_ydl d request)) h = .success r) :
    (send d request).1 = .success r ∧
    (send d request).2.1 =
      pre.flatMap (handlerEvents (prepare (merge_ydl d request))) ++
        handlerEvents (prepare (merge_ydl d request)) h := by
  have hne : d.handlers ≠ [] := by
    intro h0
    rw [h0] at hsplit
    simp at hsplit
  rw [send_of_ne_nil d request hne, hsplit,
    runLoop_nonstop_append (prepare (merge_ydl d request)) pre hpre (h :: post) [] []]
  constructor <;> simp [runLoop, hs]

/-- C1 counterexample to the claim as stated: in registry `[B, A]` (`A` added
last), `B`'s `can_handle` accepts and its `handle` succeeds with `respB`, so the
claim says `send` returns `respB`; but `A`, tried first, accepts and raises a
`RequestError`, which `send` propagates instead. -/
theorem send_success_claim_counterexample :
    classify (prepare (merge_ydl dBA req0)) hB = .success respB ∧
    hB ∈ dBA.handlers ∧
    (send dBA req0).1 = .failure "boom" ∧
    (send dBA req0).1 ≠ .success respB := by
  refine ⟨rfl, List.mem_cons_self _ _, rfl, ?_⟩
  decide

/-- C1 witness: in registry `[B, D1]` (decliner `D1` tried first), `send`
returns `B`'s response. -/
theorem send_success_highest_priority_witness :
    (send dDeclB req0).1 = .success respB :=
  (send_success_highest_priority dDeclB req0 [hDecl1] [] hB respB rfl
    (by decide) rfl).1

/-- C2. If dispatch reaches a handler (every handler before it in dispatch
order declined or faulted) whose `can_handle` accepts and whose `handle` raises
a `RequestError` with message `m`, then `send` fails with exactly `m`, and the
trace ends at this handler: no further handler is tried, regardless of what the
handlers below it would have done. -/
theorem send_request_error_propagates (d : RequestDirector) (request : Request)
    (pre post : List Handler) (h : Handler) (m : String)
    (hsplit : d.handlers.reverse = pre ++ h :: post)
    (hpre : ∀ g ∈ pre, stops (prepare (merge_ydl d request)) g = false)
    (hc : h.can_handle (prepare (merge_ydl d request)) = .ok ())
    (hh : h.handle (prepare (merge_ydl d request)) = .exn (.requestError m)) :
    (send d request).1 = .failure m ∧
    (send d request).2.1 =
      pre.flatMap (handlerEvents (prepare (merge_ydl d request))) ++
        handlerEvents (prepare (merge_ydl d request)) h := by
  have hcl : classify (prepare (merge_ydl d request)) h = .failedRE m := by
    simp [classify, hc, hh]
  have hne : d.handlers ≠ [] := by
    intro h0
    rw [h0] at hsplit
    simp at hsplit
  rw [send_of_ne_nil d request hne, hsplit,
    runLoop_nonstop_append (prepare (merge_ydl d request)) pre hpre (h :: post) [] []]
  constructor <;> simp [runLoop, hcl]

/-- C2 witness: in registry `[B, A]`, `A` (tried first) accepts and fails with
`RequestError "boom"`; `send` fails with "boom" although `B` below would have
accepted and succeeded. -/
theorem send_request_error_propagates_witness :
    (send dBA req0).1 = .failure "boom" ∧
    classify (prepare (merge_ydl dBA req0)) hB = .success respB :=
  ⟨(send_request_error_propagates dBA req0 [] [hB] hA "boom" rfl
      (by simp) rfl rfl).1,
   rfl⟩

/-- C3. If dispatch reaches a handler whose `can_handle` accepts and whose
`handle` raises a non-`RequestError` exception with message `m`, then `send`'s
outcome is that of continuing the loop with the remaining handlers, with `m`
recorded in the unexpected-errors accumulator, and the non-fatal
`report_error` diagnostic for this handler appears in the trace: dispatch does
not fail at this handler. -/
theorem send_unexpected_fault_continues (d : RequestDirector) (request : Request)
    (pre post : List Handler) (h : Handler) (m : String)
    (hsplit : d.handlers.reverse = pre ++ h :: post)
    (hpre : ∀ g ∈ pre, stops (prepare (merge_ydl d request)) g = false)
    (hc : h.can_handle (prepare (merge_ydl d request)) = .ok ())
    (hh : h.handle (prepare (merge_ydl d request)) = .exn (.other m)) :
    (send d request).1 =
      (runLoop (prepare (merge_ydl d request)) post
        (declinedPairs (prepare (merge_ydl d request)) pre)
        (faultsOf (prepare (merge_ydl d request)) pre ++ [m])).1 ∧
    Event.unexpectedDiag h.RH_NAME m ∈ (send d request).2.1 := by
  have hcl : classify (prepare (merge_ydl d request)) h = .fault m := by
    simp [classify, hc, hh]
  have hne : d.handlers ≠ [] := by
    intro h0
    rw [h0] at hsplit
    simp at hsplit
  rw [send_of_ne_nil d request hne, hsplit,
    runLoop_nonstop_append (prepare (merge_ydl d request)) pre hpre (h :: post) [] []]
  constructor
  · simp [runLoop, hcl]
  · have hmem : Event.unexpectedDiag h.RH_NAME m ∈
        handlerEvents (prepare (merge_ydl d request)) h := by
      simp [handlerEvents, hc, hh]
    simp only [runLoop, hcl]
    exact List.mem_append.mpr (Or.inr (List.mem_append.mpr (Or.inl hmem)))

/-- C3 witness: in registry `[B, F]`, `F` (tried first) faults unexpectedly;
dispatch continues with `B` and the diagnostic is in the trace. -/
theorem send_unexpected_fault_continues_witness :
    (send dFaultB req0).1 =
      (runLoop (prepare (merge_ydl dFaultB req0)) [hB] [] ["crash"]).1 ∧
    Event.unexpectedDiag "F" "crash" ∈ (send dFaultB req0).2.1 :=
  send_unexpected_fault_continues dFaultB req0 [] [hB] hFault "crash" rfl
    (by simp) rfl rfl

/-- C5. On an empty registry `send` fails immediately with the configuration
`RequestError` (message `No request handlers configured`), the event trace is
empty (no `can_handle` or `handle` call), and the caller's request is returned
untouched (no preparation happened). -/
theorem send_empty_registry (d : RequestDirector) (request : Request)
    (h : d.handlers = []) :
    send d request = (.failure "No request handlers configured", [], request) := by
  simp [send, h]

/-- C5 witness: the empty fixture registry. -/
theorem send_empty_registry_witness :
    send dEmpty req0 = (.failure "No request handlers configured", [], req0) :=
  send_empty_registry dEmpty req0 rfl

/-- C10. If dispatch reaches a handler whose `can_handle` accepts and whose
`handle` then raises `UnsupportedRequest` with message `m`, the director
classifies this as a declination (the `except UnsupportedRequest` clause covers
both calls and precedes the `RequestError` re-raise): the reason is recorded
with the handler's name and dispatch continues with the remaining handlers;
the trace shows `handle` was invoked and the declination diagnostic emitted. -/
theorem send_late_unsupported_is_declination (d : RequestDirector) (request : Request)
    (pre post : List Handler) (h : Handler) (m : String)
    (hsplit : d.handlers.reverse = pre ++ h :: post)
    (hpre : ∀ g ∈ pre, stops (prepare (merge_ydl d request)) g = false)
    (hc : h.can_handle (prepare (merge_ydl d request)) = .ok ())
    (hh : h.handle (prepare (merge_ydl d request)) = .exn (.unsupported m)) :
    classify (prepare (merge_ydl d request)) h = .declined m ∧
    (send d request).1 =
      (runLoop (prepare (merge_ydl d request)) post
        (declinedPairs (prepare (merge_ydl d request)) pre ++ [(m, h.RH_NAME)])
        (faultsOf (prepare (merge_ydl d request)) pre)).1 ∧
    Event.handleCalled h.RH_NAME ∈ (send d request).2.1 ∧
    Event.declinedDiag h.RH_NAME m ∈ (send d request).2.1 := by
  have hcl : classify (prepare (merge_ydl d request)) h = .declined m := by
    simp [classify, hc, hh]
  have hne : d.handlers ≠ [] := by
    intro h0
    rw [h0] at hsplit
    simp at hsplit
  refine ⟨hcl, ?_, ?_, ?_⟩
  · rw [send_of_ne_nil d request hne, hsplit,
      runLoop_nonstop_append (prepare (merge_ydl d request)) pre hpre (h :: post) [] []]
    simp [runLoop, hcl]
  · rw [send_of_ne_nil d request hne, hsplit,
      runLoop_nonstop_append (prepare (merge_ydl d request)) pre hpre (h :: post) [] []]
    have hmem : Event.handleCalled h.RH_NAME ∈
        handlerEvents (prepare (merge_ydl d request)) h := by
      simp [handlerEvents, hc, hh]
    simp only [runLoop, hcl]
    exact List.mem_append.mpr (Or.inr (List.mem_append.mpr (Or.inl hmem)))
  · rw [send_of_ne_nil d request hne, hsplit,
      runLoop_nonstop_append (prepare (merge_ydl d request)) pre hpre (h :: post) [] []]
    have hmem : Event.declinedDiag h.RH_NAME m ∈
        handlerEvents (prepare (merge_ydl d request)) h := by
      simp [handlerEvents, hc, hh]
    simp only [runLoop, hcl]
    exact List.mem_append.mpr (Or.inr (List.mem_append.mpr (Or.inl hmem)))

/-- C10 witness: in registry `[B, U]`, `U` (tried first) accepts and raises
`UnsupportedRequest "late decline"` from `handle`; it is recorded as a
declination and dispatch continues with `B`. -/
theorem send_late_unsupported_is_declination_witness :
    classify (prepare (merge_ydl dUB req0)) hU = .declined "late decline" ∧
    (send dUB req0).1 =
      (runLoop (prepare (merge_ydl dUB req0)) [hB] [("late decline", "U")] []).1 ∧
    Event.handleCalled "U" ∈ (send dUB req0).2.1 ∧
    Event.declinedDiag "U" "late decline" ∈ (send dUB req0).2.1 :=
  send_late_unsupported_is_declination dUB req0 [] [hB] hU "late decline" rfl
    (by simp) rfl rfl

/-! Helper lemmas about the exhaustion aggregation (`groupReasons`). -/

theorem lookupReason_insertReason (acc : List (String × List String)) (m n k : String) :
    lookupReason (insertReason acc m n) k =
      if k = m then lookupReason acc m ++ [n] else lookupReason acc k := by
  induction acc with
  | nil =>
    simp only [insertReason, lookupReason]
    by_cases hk : k = m
    · simp [hk]
    · simp [hk, Ne.symm hk]
  | cons p acc ih =>
    obtain ⟨m', ns⟩ := p
    simp only [insertReason]
    by_cases hm : m' = m
    · subst hm
      by_cases hk : k = m'
      · subst hk
        simp [lookupReason]
      · simp [lookupReason, hk, Ne.symm hk]
    · simp only [if_neg hm, lookupReason]
      by_cases hk' : m' = k
      · subst hk'
        simp [lookupReason, hm, Ne.symm hm]
      · simp [lookupReason, hk', ih]

theorem map_fst_insertReason (acc : List (String × List String)) (m n : String) :
    (insertReason acc m n).map Prod.fst =
      if m ∈ acc.map Prod.fst then acc.map Prod.fst else acc.map Prod.fst ++ [m] := by
  induction acc with
  | nil => simp [insertReason]
  | cons p acc ih =>
    obtain ⟨m', ns⟩ := p
    simp only [insertReason]
    by_cases hm : m' = m
    · subst hm
      simp
    · have hmm : m ≠ m' := fun h => hm h.symm
      simp only [if_neg hm, List.map_cons, ih, List.mem_cons]
      by_cases hmem : m ∈ acc.map Prod.fst
      · simp [hmem, hmm]
      · simp [hmem, hmm]

theorem nodup_map_fst_insertReason (acc : List (String × List String)) (m n : String)
    (h : (acc.map Prod.fst).Nodup) :
    ((insertReason acc m n).map Prod.fst).Nodup := by
  rw [map_fst_insertReason]
  by_cases hm : m ∈ acc.map Prod.fst
  · simpa [hm] using h
  · simp [hm, List.nodup_append, h]

theorem lookupReason_groupAux (errs : List (String × String))
    (acc : List (String × List String)) (k : String) :
    lookupReason (errs.foldl (fun a e => insertReason a e.1 e.2) acc) k =
      lookupReason acc k ++ (errs.filter (fun e => e.1 == k)).map Prod.snd := by
  induction errs generalizing acc with
  | nil => simp
  | cons e errs ih =>
    obtain ⟨em, en⟩ := e
    simp only [List.foldl_cons, List.filter_cons]
    rw [ih, lookupReason_insertReason]
    by_cases hk : k = em
    · subst hk
      simp [List.append_assoc]
    · have hbe : (em == k) = false := by
        simp [Ne.symm hk]
      simp [hk, hbe]

theorem mem_map_fst_groupAux (errs : List (String × String))
    (acc : List (String × List String)) (k : String) :
    k ∈ (errs.foldl (fun a e => insertReason a e.1 e.2) acc).map Prod.fst ↔
      k ∈ acc.map Prod.fst ∨ k ∈ errs.map Prod.fst := by
  induction errs generalizing acc with
  | nil => simp
  | cons e errs ih =>
    simp only [List.foldl_cons]
    rw [ih, map_fst_insertReason]
    by_cases hm : e.1 ∈ acc.map Prod.fst
    · simp only [if_pos hm, List.map_cons, List.mem_cons]
      constructor
      · rintro (h | h)
        · exact Or.inl h
        · exact Or.inr (Or.inr h)
      · rintro (h | h | h)
        · exact Or.inl h
        · exact Or.inl (by rw [h]; exact hm)
        · exact Or.inr h
    · simp [hm, List.mem_append, or_assoc]

theorem nodup_map_fst_groupAux (errs : List (String × String))
    (acc : List (String × List String)) (h : (acc.map Prod.fst).Nodup) :
    ((errs.foldl (fun a e => insertReason a e.1 e.2) acc).map Prod.fst).Nodup := by
  induction errs generalizing acc with
  | nil => simpa
  | cons e errs ih => exact ih _ (nodup_map_fst_insertReason _ _ _ h)

/-- What `groupReasons` stores under a message is exactly the list of names of
the handlers that recorded that message, in recording order. -/
theorem lookupReason_groupReasons (errs : List (String × String)) (k : String) :
    lookupReason (groupReasons errs) k =
      (errs.filter (fun e => e.1 == k)).map Prod.snd := by
  have := lookupReason_groupAux errs [] k
  simpa [groupReasons, lookupReason] using this

/-- Each distinct message appears at most once among `groupReasons`' keys. -/
theorem nodup_groupReasons_keys (errs : List (String × String)) :
    ((groupReasons errs).map Prod.fst).Nodup :=
  nodup_map_fst_groupAux errs [] (by simp)

/-- `groupReasons`' keys are exactly the messages that occur in the input. -/
theorem mem_groupReasons_keys (errs : List (String × String)) (k : String) :
    k ∈ (groupReasons errs).map Prod.fst ↔ k ∈ errs.map Prod.fst := by
  have := mem_map_fst_groupAux errs [] k
  simpa [groupReasons] using this

/-- C4. When every handler declines or faults, `send` fails with the aggregated
message built from the recorded declination pairs and fault messages; the
grouping behind that message lists each distinct reason text exactly once
(keys are nodup and are exactly the reasons that occurred), maps each reason to
the names of all handlers that gave it, and — exactly when unexpected faults
occurred — appends their count as a final reason entry. -/
theorem send_exhaustion_aggregates (d : RequestDirector) (request : Request)
    (hne : d.handlers ≠ [])
    (hall : ∀ g ∈ d.handlers, stops (prepare (merge_ydl d request)) g = false) :
    (send d request).1 =
      .failure (exhaustMsg (dispatchDecls d request) (dispatchFaults d request)) ∧
    ((groupReasons (dispatchDecls d request)).map Prod.fst).Nodup ∧
    (∀ m, lookupReason (groupReasons (dispatchDecls d request)) m =
      ((dispatchDecls d request).filter (fun e => e.1 == m)).map Prod.snd) ∧
    (∀ m, m ∈ (groupReasons (dispatchDecls d request)).map Prod.fst ↔
      m ∈ (dispatchDecls d request).map Prod.fst) ∧
    (dispatchFaults d request ≠ [] →
      reasonsList (dispatchDecls d request) (dispatchFaults d request) =
        (groupReasons (dispatchDecls d request)).map renderReason ++
          [toString (dispatchFaults d request).length ++ " unexpected error(s)"]) := by
  refine ⟨?_, nodup_groupReasons_keys _, fun m => lookupReason_groupReasons _ m,
    fun m => mem_groupReasons_keys _ m, ?_⟩
  · have hall' : ∀ g ∈ d.handlers.reverse,
        stops (prepare (merge_ydl d request)) g = false :=
      fun g hg => hall g (List.mem_reverse.mp hg)
    rw [send_of_ne_nil d request hne,
      runLoop_exhaust (prepare (merge_ydl d request)) d.handlers.reverse hall' [] []]
    simp [dispatchDecls, dispatchFaults]
  · intro hf
    have hemp : (dispatchFaults d request).isEmpty = false := by
      simpa [List.isEmpty_iff] using hf
    simp [reasonsList, hemp]

/-- C4 witness: registry `[F, D2, D1]` — both decliners share one reason text,
which is listed once with both names, followed by the count of the one
unexpected fault. -/
theorem send_exhaustion_aggregates_witness :
    (send dExh req0).1 =
      .failure (exhaustMsg (dispatchDecls dExh req0) (dispatchFaults dExh req0)) ∧
    exhaustMsg (dispatchDecls dExh req0) (dispatchFaults dExh req0) =
      "Unable to handle request, possible reason(s): unsupported scheme (D1, D2), 1 unexpected error(s)" :=
  ⟨(send_exhaustion_aggregates dExh req0 (by simp [dExh]) (by decide)).1, by decide⟩

/-- C8. `add_handler` is a no-op when the same instance is already registered
(the existing position — and hence priority — is retained because the whole
registry is unchanged); otherwise it appends the handler at the end (highest
priority); and it preserves the no-duplicate-instance invariant. -/
theorem add_handler_spec (d : RequestDirector) (h : Handler) :
    (hasHandler d.handlers h = true → add_handler d h = d) ∧
    (hasHandler d.handlers h = false →
      (add_handler d h).handlers = d.handlers ++ [h]) ∧
    ((d.handlers.map Handler.id).Nodup →
      ((add_handler d h).handlers.map Handler.id).Nodup) := by
  refine ⟨?_, ?_, ?_⟩
  · intro hm
    simp [add_handler, hm]
  · intro hm
    simp [add_handler, hm]
  · intro hnd
    cases hm : hasHandler d.handlers h with
    | true => simpa [add_handler, hm] using hnd
    | false =>
      have hid : h.id ∉ d.handlers.map Handler.id := by
        intro hin
        obtain ⟨g, hg, hgid⟩ := List.mem_map.mp hin
        have htrue : hasHandler d.handlers h = true := by
          simp only [hasHandler, List.any_eq_true]
          exact ⟨g, hg, by simp [hgid]⟩
        rw [hm] at htrue
        exact Bool.noConfusion htrue
      simp [add_handler, hm, List.nodup_append, hnd, hid]

/-- C8 witness: re-adding the already-registered `hB` leaves `[B, A]`
unchanged; adding `hB` to `[D1]` appends it. -/
theorem add_handler_spec_witness :
    add_handler dBA hB = dBA ∧
    (add_handler dDecl hB).handlers = dDecl.handlers ++ [hB] :=
  ⟨(add_handler_spec dBA hB).1 rfl, (add_handler_spec dDecl hB).2.1 rfl⟩

/-- C9. `replace_handler` is exactly `remove_handler` followed by
`add_handler`; the result is the registry with every entry for this instance
removed and the handler appended at the highest-priority (last) slot, so the
instance occurs exactly once afterwards. -/
theorem replace_handler_spec (d : RequestDirector) (h : Handler) :
    replace_handler d h = add_handler (remove_handler d (.inst h.id)) h ∧
    (replace_handler d h).handlers =
      d.handlers.filter (fun g => !(g.id == h.id)) ++ [h] ∧
    (replace_handler d h).handlers.filter (fun g => g.id == h.id) = [h] := by
  have hf : (remove_handler d (.inst h.id)).handlers =
      d.handlers.filter (fun g => !(g.id == h.id)) := rfl
  have hmem : hasHandler (d.handlers.filter (fun g => !(g.id == h.id))) h = false := by
    rw [Bool.eq_false_iff]
    intro hany
    rw [hasHandler, List.any_eq_true] at hany
    obtain ⟨g, hg, hgid⟩ := hany
    rw [List.mem_filter] at hg
    rw [hgid] at hg
    exact Bool.noConfusion hg.2
  have h2 : (replace_handler d h).handlers =
      d.handlers.filter (fun g => !(g.id == h.id)) ++ [h] := by
    simp [replace_handler, add_handler, hf, hmem]
  refine ⟨rfl, h2, ?_⟩
  rw [h2, List.filter_append, List.filter_filter]
  simp

/-- C6 is violated by the code: `_merge_ydl` reassigns `headers`, `timeout` and
`proxies` on the caller's request object itself before dispatching (the
source's own comment says `TODO: need to make a copy of request`), so the
caller-owned `Request` does not come back unchanged from `send`. Concretely:
`req0` goes in with empty headers, no timeout and no proxies, and after `send`
the caller's object carries the process-default header, timeout and proxy
map. -/
theorem merge_mutates_caller_request :
    (send dDecl req0).2.2 ≠ req0 ∧
    req0.headers = [] ∧ req0.timeout = none ∧ req0.proxies = [] ∧
    (send dDecl req0).2.2.headers = [("Accept", "x")] ∧
    (send dDecl req0).2.2.timeout = some 20 ∧
    (send dDecl req0).2.2.proxies = [("http", "p")] := by
  refine ⟨?_, rfl, rfl, rfl, ?_, rfl, rfl⟩
  · decide
  · decide

end Networking
